import Mathlib

/-!
Shallow embedding of `aws_ecr_scan_results.py` (ministryofjustice/
opg-publish-ecr-scan-results-to-slack).

The script is a single linear workflow: assume an IAM role, list ECR
repositories matching a substring, wait for image scans, build a text
report from scan findings and optionally POST it to a Slack webhook.
External collaborators (STS, the ECR service, the webhook endpoint) are
modelled as parameters supplying their responses; printing is modelled
as an accumulated list of output lines; a raised Python exception is an
`Except.error` (or a recorded `err` field where the run continues).
-/

/-- Python whitespace test used by `str.lstrip()` / `str.strip()`
(ASCII fragment). -/
def isPySpace (c : Char) : Bool :=
  c = ' ' || c = '\t' || c = '\n' || c = '\r' || c = '\x0b' || c = '\x0c'

/-- Models Python `str.expandtabs()` (tab size 8, column resets at
newline / carriage return), used by `inspect.cleandoc`. -/
def pyExpandTabs : Nat → List Char → List Char
  | _, [] => []
  | col, c :: rest =>
    if c = '\t' then
      List.replicate (8 - col % 8) ' ' ++ pyExpandTabs (col + (8 - col % 8)) rest
    else if c = '\n' || c = '\r' then
      c :: pyExpandTabs 0 rest
    else
      c :: pyExpandTabs (col + 1) rest

/-- Models Python `str.split('\n')`. -/
def splitLines : List Char → List (List Char)
  | [] => [[]]
  | c :: rest =>
    if c = '\n' then [] :: splitLines rest
    else
      match splitLines rest with
      | [] => [[c]]
      | l :: ls => (c :: l) :: ls

/-- Indentation of a line as computed by `inspect.cleandoc`:
`none` when the line has no non-whitespace content. -/
def lineIndent (l : List Char) : Option Nat :=
  let content := l.dropWhile isPySpace
  if content.isEmpty then Option.none else some (l.length - content.length)

/-- Minimum indentation over the given lines (the `margin` of
`inspect.cleandoc`, `none` standing for `sys.maxsize`). -/
def marginOf (lines : List (List Char)) : Option Nat :=
  lines.foldl
    (fun m l =>
      match lineIndent l with
      | Option.none => m
      | some i =>
        match m with
        | Option.none => some i
        | some j => some (min j i))
    Option.none

/-- Models `inspect.cleandoc` (CPython `inspect.py`): expand tabs, split
into lines, strip the minimum indentation of all non-blank lines after
the first, lstrip the first line, then drop trailing and leading blank
lines and re-join with newlines. -/
def cleandoc (doc : String) : String :=
  let lines := splitLines (pyExpandTabs 0 doc.data)
  let lines :=
    match lines with
    | [] => []
    | first :: rest =>
      let rest :=
        match marginOf rest with
        | Option.none => rest
        | some m => rest.map (List.drop m)
      first.dropWhile isPySpace :: rest
  let lines := (lines.reverse.dropWhile List.isEmpty).reverse
  let lines := lines.dropWhile List.isEmpty
  ⟨List.intercalate ['\n'] lines⟩

/-- Models Python `repr` of a `dict` with string keys and integer
values, preserving insertion order (the serialization of the
`findingSeverityCounts` mapping interpolated by `str.format`). -/
def pyDictRepr (counts : List (String × Nat)) : String :=
  "\x7b" ++
    String.intercalate ", "
      (counts.map (fun kv => "\x27" ++ kv.1 ++ "\x27: " ++ toString kv.2)) ++
  "\x7d"

/-- One ECR scan finding as consumed by `recursive_check_make_report`:
the JSON record's `name`, optional `description`, `severity` and `uri`
keys. -/
structure Finding where
  name : String
  description : Option String
  severity : String
  uri : String
deriving DecidableEq, Repr

/-- Relevant part of a `describe_image_scan_findings` response: the
`imageScanFindings` object's `findings` list and
`findingSeverityCounts` mapping. -/
structure ImageScanFindings where
  findings : List Finding
  findingSeverityCounts : List (String × Nat)
deriving DecidableEq, Repr

/-- State threaded through report construction: the instance attribute
`self.report` plus everything printed so far. -/
structure ReportState where
  report : String
  output : List String
deriving DecidableEq, Repr

/-- Run of 38 spaces: the indentation of the continuation lines of the
`severity_counts` template literal in the source. -/
def margin38 : String := ⟨List.replicate 38 ' '⟩

/-- Run of 34 spaces: the indentation of the continuation lines of the
per-finding `result` template literal in the source. -/
def margin34 : String := ⟨List.replicate 34 ' '⟩

/-- Embeds `"\n\n:warning: *AWS ECR Scan found results for {}:* \n".format(image)`. -/
def titleText (image : String) : String :=
  "\n\n:warning: *AWS ECR Scan found results for " ++ image ++ ":* \n"

/-- Embeds the `severity_counts` construction: `inspect.cleandoc` applied
to the formatted triple-quoted template (whose continuation lines carry
38 spaces of indentation in the source). -/
def severityCountsText (counts : List (String × Nat)) (report_limit : Int) : String :=
  cleandoc ("Severity finding counts: " ++ pyDictRepr counts ++ "\n" ++
    margin38 ++ "Displaying the first " ++ toString report_limit ++
    " in order of severity\n\n" ++ margin38)

/-- Embeds the `description` local of `recursive_check_make_report`:
`"None"` when the finding record has no `description` key, otherwise the
finding's own description. -/
def findingDescription (finding : Finding) : String :=
  match finding.description with
  | Option.none => "None"
  | some d => d

/-- Embeds the per-finding `result` construction: `inspect.cleandoc`
applied to the formatted triple-quoted template (continuation lines at
34 spaces, including the `**Tag:*` literal of the source). -/
def resultText (image tag : String) (finding : Finding) : String :=
  cleandoc ("*Image:* " ++ image ++ "\n" ++
    margin34 ++ "**Tag:* " ++ tag ++ "\n" ++
    margin34 ++ "*Severity:* " ++ finding.severity ++ "\n" ++
    margin34 ++ "*CVE:* " ++ finding.name ++ "\n" ++
    margin34 ++ "*Description:* " ++ findingDescription finding ++ "\n" ++
    margin34 ++ "*Link:* " ++ finding.uri ++ "\n\n" ++ margin34)

/-- Text assigned to `self.report` for one repository with findings:
`title + severity_counts` then `+=` of each finding's `result` block. -/
def repoReportText (image tag : String) (report_limit : Int)
    (resp : ImageScanFindings) : String :=
  resp.findings.foldl
    (fun rep finding => rep ++ resultText image tag finding)
    (titleText image ++ severityCountsText resp.findingSeverityCounts report_limit)

/-- Embeds the body of the `for image in self.images_to_check` loop of
`recursive_check_make_report`. `fetch` supplies the outcome of
`get_ecr_scan_findings` (the external ECR call; `Except.error` is a
raised exception, swallowed by the bare `except:`). Note the source
assigns `self.report = title + severity_counts` (not `+=`) before
appending the finding blocks. -/
def check_images (fetch : String → String → Except String ImageScanFindings)
    (tag : String) (report_limit : Int) :
    List String → ReportState → Except String ReportState
  | [], st => Except.ok st
  | image :: rest, st =>
    match fetch image tag with
    | Except.error _ =>
      check_images fetch tag report_limit rest
        { st with output := st.output ++
            ["Unable to get ECR image scan results for image " ++ image ++
              ", tag " ++ tag] }
    | Except.ok resp =>
      if resp.findings ≠ [] then
        check_images fetch tag report_limit rest
          { report := repoReportText image tag report_limit resp,
            output := st.output ++ [repoReportText image tag report_limit resp] }
      else
        check_images fetch tag report_limit rest st

/-- Embeds `recursive_check_make_report`: print the banner, then process
every repository in order. -/
def recursive_check_make_report
    (fetch : String → String → Except String ImageScanFindings)
    (tag : String) (report_limit : Int) (images : List String)
    (st : ReportState) : Except String ReportState :=
  check_images fetch tag report_limit images
    { st with output := st.output ++ ["Checking ECR scan results..."] }

/-- Embeds `wait_for_scan_completion`: the `image_scan_complete` waiter
(external, outcome supplied by `waiter`; `Except.error` is a raised
`WaiterError`) wrapped in a bare `except:` that prints a diagnostic.
Returns the lines printed; an `Except.error` result would be an
uncaught exception. -/
def wait_for_scan_completion (waiter : String → String → Except String Unit)
    (image tag : String) : Except String (List String) :=
  match waiter image tag with
  | Except.ok _ => Except.ok []
  | Except.error _ =>
    Except.ok ["No ECR image scan results for image " ++ image ++ ", tag " ++ tag]

/-- Embeds the loop of `recursive_wait` over `self.images_to_check`
(an `Except.error` of a component, were one possible, would propagate). -/
def wait_images (waiter : String → String → Except String Unit)
    (tag : String) : List String → Except String (List String)
  | [] => Except.ok []
  | image :: rest =>
    match wait_for_scan_completion waiter image tag with
    | Except.error e => Except.error e
    | Except.ok out =>
      match wait_images waiter tag rest with
      | Except.error e => Except.error e
      | Except.ok outs => Except.ok (out ++ outs)

/-- Embeds `recursive_wait`: banner, per-image wait, closing banner. -/
def recursive_wait (waiter : String → String → Except String Unit)
    (tag : String) (images : List String) : Except String (List String) :=
  match wait_images waiter tag images with
  | Except.error e => Except.error e
  | Except.ok body =>
    Except.ok (["Waiting for ECR scans to complete..."] ++ body ++
      ["ECR image scans complete"])

/-- Embeds `get_repositories`: append to `images_to_check` every listed
repository name containing `search_term` (Python `in` on strings is
literal case-sensitive substring containment, modelled by
`containsSub`). `repositories` supplies the names of the external
`describe_repositories` response, in response order. -/
def matchesAt : List Char → List Char → Bool
  | [], _ => true
  | _ :: _, [] => false
  | a :: as, b :: bs => a == b && matchesAt as bs

/-- Substring containment on character lists: `containsSub n h` is true
exactly when `n` occurs contiguously inside `h` (Python `n in h` for
strings). -/
def containsSub (needle hay : List Char) : Bool :=
  match hay with
  | [] => needle.isEmpty
  | _ :: rest => matchesAt needle hay || containsSub needle rest

/-- Embeds the `get_repositories` filtering loop. -/
def get_repositories (search_term : String) (repositories : List String) :
    List String :=
  repositories.foldl
    (fun images_to_check name =>
      if containsSub search_term.data name.data then images_to_check ++ [name]
      else images_to_check)
    []

/-- HTTP response of the webhook endpoint as seen by `post_to_slack`
(the `requests.post` exchange itself is external). -/
structure HttpResponse where
  status_code : Nat
  text : String
deriving DecidableEq, Repr

/-- Embeds `post_to_slack`: raise `ValueError` (the `%`-formatted
message) when the webhook response status is not 200, return normally
otherwise. -/
def post_to_slack (report : String) (response : HttpResponse) :
    Except String Unit :=
  if response.status_code ≠ 200 then
    Except.error ("Request to slack returned an error " ++
      toString response.status_code ++ ", the response is:\n" ++ response.text)
  else
    Except.ok ()

/-- Embeds `finalise_report`: when `self.report` is non-empty, append the
branch/build metadata block (environment variables read with
`os.getenv(_, "")`, so an absent variable becomes the empty string) and
print the result. Returns the new report and the lines printed. -/
def finalise_report (report : String)
    (circle_branch circle_build_url : Option String) : String × List String :=
  if report ≠ "" then
    let branch_info := "\n*Github Branch:* " ++ circle_branch.getD "" ++
      "\n*CircleCI Job Link:* " ++ circle_build_url.getD "" ++ "\n\n"
    (report ++ branch_info, [report ++ branch_info])
  else
    (report, [])

/-- Python value relevant to the `post_to_slack` CLI argument: the
`default=True` boolean or a string taken verbatim from the command
line. -/
inductive PyVal where
  | bool (b : Bool)
  | str (s : String)
deriving DecidableEq, Repr

/-- Python truthiness of such a value (a string is truthy exactly when
non-empty). -/
def pyTruthy : PyVal → Bool
  | PyVal.bool b => b
  | PyVal.str s => s != ""

/-- Embeds argparse's handling of `--post_to_slack` (declared with
`default=True` and no `type=` converter): absent gives `True`, supplied
gives the command-line string verbatim. -/
def parsed_post_to_slack (cli : Option String) : PyVal :=
  match cli with
  | Option.none => PyVal.bool true
  | some s => PyVal.str s

/-- Skip message printed by `main` when no POST is made. -/
def skip_message : String :=
  "No slack webhook provided, skipping post of results to slack"

/-- Outcome of the tail of `main`: lines printed, webhook URLs POSTed,
and the uncaught exception if `post_to_slack` raised. -/
structure MainResult where
  output : List String
  posts : List String
  err : Option String
deriving DecidableEq, Repr

/-- Embeds the tail of `main` after report construction:
`finalise_report`, then `if args.post_to_slack and args.slack_webhook is
not None:` POST to the webhook else print the skip message.
`webhook_response` supplies the external endpoint's response in case a
POST is made. -/
def mainFinish (report : String)
    (circle_branch circle_build_url : Option String)
    (post_to_slack_arg : PyVal) (slack_webhook : Option String)
    (webhook_response : HttpResponse) : MainResult :=
  let fr := finalise_report report circle_branch circle_build_url
  if pyTruthy post_to_slack_arg && slack_webhook.isSome then
    match post_to_slack fr.1 webhook_response with
    | Except.ok _ =>
      { output := fr.2, posts := [slack_webhook.getD ""], err := Option.none }
    | Except.error e =>
      { output := fr.2, posts := [slack_webhook.getD ""], err := some e }
  else
    { output := fr.2 ++ [skip_message], posts := [], err := Option.none }

/-- Value passed as the `result_limit` constructor argument: the
argparse `default=5` integer or a command-line string. -/
inductive PyIntArg where
  | int (n : Int)
  | str (s : String)
deriving DecidableEq, Repr

/-- Digit-run parser for the Python `int()` builtin: base-10 digits with
single underscores allowed only between digits. -/
def digitsCore : Nat → List Char → Option Nat
  | acc, [] => some acc
  | acc, c :: rest =>
    if c.isDigit then digitsCore (acc * 10 + (c.toNat - 48)) rest
    else if c = '_' then
      match rest with
      | [] => Option.none
      | d :: _ => if d.isDigit then digitsCore acc rest else Option.none
    else Option.none

/-- Strips leading and trailing Python whitespace. -/
def stripWS (l : List Char) : List Char :=
  ((l.dropWhile isPySpace).reverse.dropWhile isPySpace).reverse

/-- Models the Python `int()` builtin on an ASCII string: optional
surrounding whitespace, optional sign, then a non-empty digit run;
`none` is a raised `ValueError`. -/
def pyIntOfString (s : String) : Option Int :=
  match stripWS s.data with
  | [] => Option.none
  | c :: rest =>
    let signed : Int × List Char :=
      if c = '+' then (1, rest)
      else if c = '-' then (-1, rest)
      else (1, c :: rest)
    match signed.2 with
    | [] => Option.none
    | d :: ds =>
      if d.isDigit then (digitsCore 0 (d :: ds)).map (fun n => signed.1 * n)
      else Option.none

/-- Models the Python `int()` builtin on the values `result_limit` can
take in `main`. -/
def pyInt : PyIntArg → Option Int
  | PyIntArg.int n => some n
  | PyIntArg.str s => pyIntOfString s

/-- Role ARN built by `set_iam_role_session`. -/
def roleArn (aws_account_id iam_role_name : String) : String :=
  "arn:aws:iam::" ++ aws_account_id ++ ":role/" ++ iam_role_name

/-- Remote AWS call attempted during construction. -/
inductive RemoteCall where
  | assumeRole (arn : String) (durationSeconds : Nat)
  | describeRepositories
deriving DecidableEq, Repr

/-- Instance attributes of `ECRScanChecker` set by a successful
`__init__`. -/
structure ECRScanChecker where
  aws_account_id : String
  iam_role_name : String
  report_limit : Int
  images_to_check : List String
deriving DecidableEq, Repr

/-- Embeds `ECRScanChecker.__init__`: assign the role name, convert
`report_limit` with `int()` (a raised `ValueError` is `Except.error`),
assign the account id, create the STS session (`assume_role`, 900
seconds), build the ECR client, then discover repositories
(`describe_repositories`, names supplied by `repos`). The second
component records the remote calls attempted, in order; a conversion
failure raises before any remote call. -/
def ECRScanChecker.init (iam_role_name ecr_aws_account_id : String)
    (report_limit : PyIntArg) (search_term : String) (repos : List String) :
    Except String ECRScanChecker × List RemoteCall :=
  match pyInt report_limit with
  | Option.none =>
    (Except.error "ValueError: invalid literal for int() with base 10", [])
  | some n =>
    (Except.ok
      { aws_account_id := ecr_aws_account_id,
        iam_role_name := iam_role_name,
        report_limit := n,
        images_to_check := get_repositories search_term repos },
     [RemoteCall.assumeRole (roleArn ecr_aws_account_id iam_role_name) 900,
      RemoteCall.describeRepositories])

/-- Example scan response for repository `repo-a`: one HIGH finding. -/
def exRespA : ImageScanFindings :=
  { findings := [{ name := "CVE-1111", description := some "issue a",
                   severity := "HIGH", uri := "http://a" }],
    findingSeverityCounts := [("HIGH", 1)] }

/-- Example scan response for repository `repo-b`: one LOW finding. -/
def exRespB : ImageScanFindings :=
  { findings := [{ name := "CVE-2222", description := some "issue b",
                   severity := "LOW", uri := "http://b" }],
    findingSeverityCounts := [("LOW", 1)] }

/-- Example ECR behaviour: scan findings exist for `repo-a` and
`repo-b`, any other repository raises. -/
def exFetch : String → String → Except String ImageScanFindings :=
  fun image _ =>
    if image = "repo-a" then Except.ok exRespA
    else if image = "repo-b" then Except.ok exRespB
    else Except.error "ImageNotFoundException"

/-- Example finding whose `description` key is present with the literal
text `"None"`. -/
def exFindLiteralNone : Finding :=
  { name := "CVE-1", description := some "None", severity := "HIGH",
    uri := "http://x" }

/-- Example finding with no `description` key. -/
def exFindAbsent : Finding :=
  { name := "CVE-1", description := Option.none, severity := "HIGH",
    uri := "u" }

/-- Example finding whose `description` key is present with ordinary
text. -/
def exFindText : Finding :=
  { name := "CVE-2", description := some "text", severity := "LOW",
    uri := "u" }

/-! Helper lemmas shared by the verification theorems below. -/

/-- Characterisation of string non-emptiness through the underlying
character list. -/
theorem string_ne_empty_iff (s : String) : s ≠ "" ↔ s.data ≠ [] := by
  constructor
  · intro h h2
    apply h
    cases s
    exact congrArg String.mk h2
  · intro h h2
    subst h2
    exact h rfl

/-- Appending a string with non-empty data changes the string. -/
theorem string_append_ne_left (a b : String) (hb : b.data ≠ []) : a ++ b ≠ a := by
  intro h
  have h2 := congrArg String.data h
  rw [String.data_append] at h2
  have h3 := congrArg List.length h2
  rw [List.length_append] at h3
  exact hb (List.length_eq_zero.mp (by omega))

/-- Left folds that only ever append preserve non-emptiness of the
accumulator's data. -/
theorem foldl_append_data_ne {α : Type} (g : α → String) (l : List α) :
    ∀ s : String, s.data ≠ [] →
      (l.foldl (fun rep f => rep ++ g f) s).data ≠ [] := by
  induction l with
  | nil => intro s hs; simpa using hs
  | cons x xs ih =>
    intro s hs
    simp only [List.foldl_cons]
    apply ih
    rw [String.data_append]
    intro h
    exact hs (List.append_eq_nil.mp h).1

/-- Report text built for a repository with findings is never empty: it
starts with the warning title. -/
theorem repoReportText_ne_empty (image tag : String) (report_limit : Int)
    (resp : ImageScanFindings) : repoReportText image tag report_limit resp ≠ "" := by
  rw [string_ne_empty_iff]
  unfold repoReportText
  apply foldl_append_data_ne
  rw [String.data_append]
  intro h
  have h1 := (List.append_eq_nil.mp h).1
  unfold titleText at h1
  rw [String.data_append, String.data_append] at h1
  have h2 := (List.append_eq_nil.mp (List.append_eq_nil.mp h1).1).1
  exact absurd h2 (by decide)

/-- Prefix matching agrees with list-level prefix decomposition. -/
theorem matchesAt_iff (n : List Char) :
    ∀ h : List Char, matchesAt n h = true ↔ ∃ t, h = n ++ t := by
  induction n with
  | nil =>
    intro h
    simp [matchesAt]
  | cons a as ih =>
    intro h
    cases h with
    | nil =>
      simp [matchesAt]
    | cons b bs =>
      simp only [matchesAt, Bool.and_eq_true, beq_iff_eq, ih bs, List.cons_append]
      constructor
      · rintro ⟨rfl, t, rfl⟩
        exact ⟨t, rfl⟩
      · rintro ⟨t, ht⟩
        injection ht with h1 h2
        exact ⟨h1.symm, t, h2⟩

/-- Substring containment agrees with list-level infix decomposition
(this is the semantics of Python `n in h` for strings). -/
theorem containsSub_iff (n : List Char) :
    ∀ h : List Char, containsSub n h = true ↔ ∃ p t, h = p ++ n ++ t := by
  intro h
  induction h with
  | nil =>
    simp only [containsSub, List.isEmpty_iff]
    constructor
    · rintro rfl
      exact ⟨[], [], rfl⟩
    · rintro ⟨p, t, hpt⟩
      rcases List.append_eq_nil.mp (List.append_eq_nil.mp hpt.symm).1 with ⟨_, h2⟩
      exact h2
  | cons c rest ih =>
    simp only [containsSub, Bool.or_eq_true, matchesAt_iff, ih]
    constructor
    · rintro (⟨t, ht⟩ | ⟨p, t, rfl⟩)
      · exact ⟨[], t, by simpa using ht⟩
      · exact ⟨c :: p, t, rfl⟩
    · rintro ⟨p, t, hh⟩
      cases p with
      | nil =>
        left
        exact ⟨t, by simpa using hh⟩
      | cons x xs =>
        right
        rw [List.cons_append, List.cons_append] at hh
        injection hh with h1 h2
        exact ⟨xs, t, h2⟩

/-- Empty needle is contained in every haystack. -/
theorem containsSub_nil (h : List Char) : containsSub [] h = true :=
  (containsSub_iff [] h).mpr ⟨[], h, rfl⟩

/-- Unfolding of the `get_repositories` accumulation loop into a
filter. -/
theorem get_repositories_loop (S : String) (l : List String) :
    ∀ acc : List String,
      l.foldl
        (fun images_to_check name =>
          if containsSub S.data name.data then images_to_check ++ [name]
          else images_to_check) acc
        = acc ++ l.filter (fun name => containsSub S.data name.data) := by
  induction l with
  | nil => intro acc; simp
  | cons x xs ih =>
    intro acc
    simp only [List.foldl_cons, List.filter_cons]
    by_cases hx : containsSub S.data x.data = true
    · simp [hx, ih]
    · simp [hx, ih]

/-- The discovery loop is a filter of the listing response. -/
theorem get_repositories_eq_filter (S : String) (repos : List String) :
    get_repositories S repos =
      repos.filter (fun name => containsSub S.data name.data) := by
  unfold get_repositories
  rw [get_repositories_loop]
  simp

/-- Behaviour of the report-construction loop: it never raises, its
final report is non-empty exactly when some processed repository had a
successful fetch with findings (or the incoming report was already
non-empty), every fetch failure leaves a diagnostic naming the
repository and tag, and previously printed output is preserved. -/
theorem check_images_spec (fetch : String → String → Except String ImageScanFindings)
    (tag : String) (report_limit : Int) :
    ∀ (images : List String) (st : ReportState),
      ∃ st2, check_images fetch tag report_limit images st = Except.ok st2 ∧
        (st2.report ≠ "" ↔
          ((∃ image ∈ images, ∃ r, fetch image tag = Except.ok r ∧ r.findings ≠ []) ∨
            st.report ≠ "")) ∧
        (∀ image ∈ images, (∃ e, fetch image tag = Except.error e) →
          ("Unable to get ECR image scan results for image " ++ image ++
            ", tag " ++ tag) ∈ st2.output) ∧
        (∀ m ∈ st.output, m ∈ st2.output) := by
  intro images
  induction images with
  | nil =>
    intro st
    exact ⟨st, rfl, by simp, by simp, fun m hm => hm⟩
  | cons image rest ih =>
    intro st
    cases hf : fetch image tag with
    | error e =>
      obtain ⟨st2, hrun, hiff, hdiag, hmono⟩ := ih
        { st with output := st.output ++
            ["Unable to get ECR image scan results for image " ++ image ++
              ", tag " ++ tag] }
      refine ⟨st2, ?_, ?_, ?_, ?_⟩
      · simp only [check_images, hf]
        exact hrun
      · rw [hiff]
        constructor
        · rintro (⟨i, hi, hP⟩ | hr)
          · exact Or.inl ⟨i, List.mem_cons_of_mem _ hi, hP⟩
          · exact Or.inr hr
        · rintro (⟨i, hi, hP⟩ | hr)
          · rcases List.mem_cons.mp hi with rfl | hi2
            · rcases hP with ⟨r, hr2, _⟩
              rw [hf] at hr2
              cases hr2
            · exact Or.inl ⟨i, hi2, hP⟩
          · exact Or.inr hr
      · intro i hi hfail
        rcases List.mem_cons.mp hi with rfl | hi2
        · exact hmono _ (List.mem_append_right _ (by simp))
        · exact hdiag i hi2 hfail
      · intro m hm
        exact hmono m (List.mem_append_left _ hm)
    | ok resp =>
      by_cases hne : resp.findings = []
      · obtain ⟨st2, hrun, hiff, hdiag, hmono⟩ := ih st
        refine ⟨st2, ?_, ?_, ?_, hmono⟩
        · simp only [check_images, hf, hne]
          simpa using hrun
        · rw [hiff]
          constructor
          · rintro (⟨i, hi, hP⟩ | hr)
            · exact Or.inl ⟨i, List.mem_cons_of_mem _ hi, hP⟩
            · exact Or.inr hr
          · rintro (⟨i, hi, hP⟩ | hr)
            · rcases List.mem_cons.mp hi with rfl | hi2
              · rcases hP with ⟨r, hr2, hr3⟩
                rw [hf] at hr2
                injection hr2 with hr4
                exact absurd (hr4 ▸ hne) hr3
              · exact Or.inl ⟨i, hi2, hP⟩
            · exact Or.inr hr
        · intro i hi hfail
          rcases List.mem_cons.mp hi with rfl | hi2
          · rcases hfail with ⟨e, he⟩
            rw [hf] at he
            cases he
          · exact hdiag i hi2 hfail
      · obtain ⟨st2, hrun, hiff, hdiag, hmono⟩ := ih
          { report := repoReportText image tag report_limit resp,
            output := st.output ++ [repoReportText image tag report_limit resp] }
        refine ⟨st2, ?_, ?_, ?_, ?_⟩
        · simp only [check_images, hf]
          rw [if_pos hne]
          exact hrun
        · have hrep : st2.report ≠ "" :=
            hiff.mpr (Or.inr (repoReportText_ne_empty image tag report_limit resp))
          have hwit : ∃ i ∈ image :: rest, ∃ r,
              fetch i tag = Except.ok r ∧ r.findings ≠ [] :=
            ⟨image, List.mem_cons_self image rest, resp, hf, hne⟩
          exact iff_of_true hrep (Or.inl hwit)
        · intro i hi hfail
          rcases List.mem_cons.mp hi with rfl | hi2
          · rcases hfail with ⟨e, he⟩
            rw [hf] at he
            cases he
          · exact hdiag i hi2 hfail
        · intro m hm
          exact hmono m (List.mem_append_left _ hm)

/-- Behaviour of the scan-wait loop: it never raises and every waiter
failure leaves a diagnostic naming the repository and tag. -/
theorem wait_images_spec (waiter : String → String → Except String Unit)
    (tag : String) :
    ∀ images : List String, ∃ outs, wait_images waiter tag images = Except.ok outs ∧
      ∀ image ∈ images, (∃ e, waiter image tag = Except.error e) →
        ("No ECR image scan results for image " ++ image ++ ", tag " ++ tag) ∈ outs := by
  intro images
  induction images with
  | nil => exact ⟨[], rfl, by simp⟩
  | cons image rest ih =>
    obtain ⟨outs, hrun, hdiag⟩ := ih
    cases hw : waiter image tag with
    | ok u =>
      refine ⟨[] ++ outs, ?_, ?_⟩
      · simp only [wait_images, wait_for_scan_completion, hw, hrun]
      · intro i hi hfail
        rcases List.mem_cons.mp hi with rfl | hi2
        · rcases hfail with ⟨e, he⟩
          rw [hw] at he
          cases he
        · exact List.mem_append_right _ (hdiag i hi2 hfail)
    | error e =>
      refine ⟨["No ECR image scan results for image " ++ image ++ ", tag " ++ tag]
          ++ outs, ?_, ?_⟩
      · simp only [wait_images, wait_for_scan_completion, hw, hrun]
      · intro i hi hfail
        rcases List.mem_cons.mp hi with rfl | hi2
        · exact List.mem_append_left _ (by simp)
        · exact List.mem_append_right _ (hdiag i hi2 hfail)

/-! Claim theorems. -/

/-- C4: for every webhook response whose HTTP status code is not 200,
`post_to_slack` raises an error whose message carries the status code
and the response body; for every response with status 200 it returns
without raising. -/
theorem c4_post_to_slack_status (report : String) (response : HttpResponse) :
    (response.status_code = 200 → post_to_slack report response = Except.ok ()) ∧
    (response.status_code ≠ 200 →
      ∃ msg, post_to_slack report response = Except.error msg ∧
        containsSub (toString response.status_code).data msg.data = true ∧
        containsSub response.text.data msg.data = true) := by
  constructor
  · intro h
    simp [post_to_slack, h]
  · intro h
    refine ⟨"Request to slack returned an error " ++ toString response.status_code ++
      ", the response is:\n" ++ response.text, ?_, ?_, ?_⟩
    · simp [post_to_slack, h]
    · rw [containsSub_iff]
      refine ⟨"Request to slack returned an error ".data,
        (", the response is:\n" ++ response.text).data, ?_⟩
      simp [String.data_append, List.append_assoc]
    · rw [containsSub_iff]
      refine ⟨("Request to slack returned an error " ++
        toString response.status_code ++ ", the response is:\n").data, [], ?_⟩
      simp [String.data_append, List.append_assoc]

/-- Witness for C4 at concrete responses: status 200 returns normally,
status 500 raises with the status and body inside the message. -/
theorem c4_post_to_slack_status_witness :
    post_to_slack "r" ⟨200, "ok"⟩ = Except.ok () ∧
    (∃ msg, post_to_slack "r" ⟨500, "oops"⟩ = Except.error msg ∧
      containsSub (toString (500 : Nat)).data msg.data = true ∧
      containsSub "oops".data msg.data = true) :=
  ⟨(c4_post_to_slack_status "r" ⟨200, "ok"⟩).1 rfl,
   (c4_post_to_slack_status "r" ⟨500, "oops"⟩).2 (by decide)⟩

/-- C5: `get_repositories` returns exactly the listed names containing
the filter as a literal substring, keeps the listing order (it is a
sublist of the listing), and the empty filter matches everything. -/
theorem c5_get_repositories_substring (S : String) (repos : List String) :
    (∀ name, name ∈ get_repositories S repos ↔
      (name ∈ repos ∧ ∃ p t, name.data = p ++ S.data ++ t)) ∧
    List.Sublist (get_repositories S repos) repos ∧
    get_repositories "" repos = repos := by
  refine ⟨?_, ?_, ?_⟩
  · intro name
    rw [get_repositories_eq_filter, List.mem_filter, containsSub_iff]
  · rw [get_repositories_eq_filter]
    exact List.filter_sublist repos
  · rw [get_repositories_eq_filter]
    exact List.filter_eq_self.mpr (fun a _ => containsSub_nil a.data)

/-- C7 counterexample: a finding whose `description` key is present with
the text `"None"` also renders as `"None"`, so "the block shows `None`
exactly when the key is absent" fails as an equivalence. -/
theorem c7_description_counterexample :
    findingDescription exFindLiteralNone = "None" ∧
    exFindLiteralNone.description ≠ Option.none := by
  exact ⟨rfl, by simp [exFindLiteralNone]⟩

/-- C7 amended: the description field of a finding's block is `"None"`
when the `description` key is absent and the finding's own description
text when present; hence it equals `"None"` exactly when the key is
absent or the description text is itself `"None"`. -/
theorem c7_description_amended (f : Finding) :
    (f.description = Option.none → findingDescription f = "None") ∧
    (∀ d, f.description = some d → findingDescription f = d) ∧
    (findingDescription f = "None" ↔
      (f.description = Option.none ∨ f.description = some "None")) := by
  cases hd : f.description with
  | none =>
    refine ⟨fun _ => ?_, fun d hdd => ?_, ?_⟩
    · simp [findingDescription, hd]
    · simp at hdd
    · simp [findingDescription, hd]
  | some d =>
    refine ⟨fun hdd => ?_, fun d2 hdd => ?_, ?_⟩
    · simp at hdd
    · injection hdd with h2
      simp [findingDescription, hd, h2]
    · simp [findingDescription, hd]

/-- Witness for C7 amended at concrete findings with the key absent and
present. -/
theorem c7_description_amended_witness :
    findingDescription exFindAbsent = "None" ∧
    findingDescription exFindText = "text" :=
  ⟨(c7_description_amended exFindAbsent).1 rfl,
   (c7_description_amended exFindText).2.1 "text" rfl⟩

/-- C8: `finalise_report` appends the branch/build metadata block (each
environment variable falling back to the empty string) exactly when the
accumulated report is non-empty — the result then genuinely differs
from the input — and leaves an empty report unchanged. -/
theorem c8_finalise_report_metadata (report : String)
    (circle_branch circle_build_url : Option String) :
    (report = "" → finalise_report report circle_branch circle_build_url =
      (report, [])) ∧
    (report ≠ "" →
      (finalise_report report circle_branch circle_build_url).1 =
        report ++ ("\n*Github Branch:* " ++ circle_branch.getD "" ++
          "\n*CircleCI Job Link:* " ++ circle_build_url.getD "" ++ "\n\n") ∧
      (finalise_report report circle_branch circle_build_url).1 ≠ report) := by
  constructor
  · intro h
    simp [finalise_report, h]
  · intro h
    have hbi : ("\n*Github Branch:* " ++ circle_branch.getD "" ++
        "\n*CircleCI Job Link:* " ++ circle_build_url.getD "" ++ "\n\n"
          : String).data ≠ [] := by
      simp only [String.data_append]
      intro hnil
      exact absurd (List.append_eq_nil.mp hnil).2 (by decide)
    constructor
    · simp [finalise_report, h]
    · simp only [finalise_report, if_pos h]
      exact string_append_ne_left _ _ hbi

/-- Witness for C8 at an empty and a non-empty report. -/
theorem c8_finalise_report_metadata_witness :
    finalise_report "" (some "main") Option.none = ("", []) ∧
    ((finalise_report "r" (some "main") Option.none).1 =
      "r" ++ ("\n*Github Branch:* " ++ (some "main").getD "" ++
        "\n*CircleCI Job Link:* " ++ (Option.none : Option String).getD "" ++
        "\n\n") ∧
     (finalise_report "r" (some "main") Option.none).1 ≠ "r") :=
  ⟨(c8_finalise_report_metadata "" (some "main") Option.none).1 rfl,
   (c8_finalise_report_metadata "r" (some "main") Option.none).2 (by decide)⟩

/-- C10: `__init__` converts `result_limit` with `int()` before the STS
session or any other remote call, so an unparseable value raises
`ValueError` with no remote call attempted. -/
theorem c10_int_before_remote_calls (iam_role_name ecr_aws_account_id : String)
    (report_limit : PyIntArg) (search_term : String) (repos : List String)
    (h : pyInt report_limit = Option.none) :
    (ECRScanChecker.init iam_role_name ecr_aws_account_id report_limit
      search_term repos).1 =
      Except.error "ValueError: invalid literal for int() with base 10" ∧
    (ECRScanChecker.init iam_role_name ecr_aws_account_id report_limit
      search_term repos).2 = [] := by
  simp [ECRScanChecker.init, h]

/-- Witness for C10: the unparseable command-line value `"five"`. -/
theorem c10_int_before_remote_calls_witness :
    (ECRScanChecker.init "ecr-scan" "111111111111" (PyIntArg.str "five") ""
      ["repo-a"]).1 =
      Except.error "ValueError: invalid literal for int() with base 10" ∧
    (ECRScanChecker.init "ecr-scan" "111111111111" (PyIntArg.str "five") ""
      ["repo-a"]).2 = [] :=
  c10_int_before_remote_calls "ecr-scan" "111111111111" (PyIntArg.str "five") ""
    ["repo-a"] (by decide)

set_option maxRecDepth 100000 in
/-- C1 (code bug): with two repositories that both have findings, the
final report equals the second repository's block alone — the source
reassigns `self.report` (line 101 uses `=`, not `+=`), so the first
repository's block, although present in `repo-a`'s own block text, is
absent from the final report. -/
theorem c1_report_overwritten :
    ∃ st, recursive_check_make_report exFetch "latest" 5 ["repo-a", "repo-b"]
        ⟨"", []⟩ = Except.ok st ∧
      st.report = repoReportText "repo-b" "latest" 5 exRespB ∧
      containsSub "repo-a".data
        (repoReportText "repo-a" "latest" 5 exRespA).data = true ∧
      containsSub "repo-a".data st.report.data = false := by
  refine ⟨⟨repoReportText "repo-b" "latest" 5 exRespB,
    ["Checking ECR scan results...",
     repoReportText "repo-a" "latest" 5 exRespA,
     repoReportText "repo-b" "latest" 5 exRespB]⟩, ?_, rfl, by decide, by decide⟩
  rfl

/-- C2 counterexample: with an empty report, the default
`post_to_slack=True` and a configured webhook, `main` still POSTs — the
delivery decision never looks at the report, so "delivery is skipped
when the report is empty" is false. -/
theorem c2_empty_report_still_posted :
    (mainFinish "" Option.none Option.none (PyVal.bool true)
      (some "https://hooks.example/x") ⟨200, "ok"⟩).posts =
      ["https://hooks.example/x"] := by
  decide

/-- C2 amended: after report construction the report is non-empty iff
some repository's findings fetch succeeded with at least one finding;
but webhook delivery is decided solely by the `post_to_slack` flag and
webhook presence, for every report text including the empty one. -/
theorem c2_report_nonempty_iff_amended
    (fetch : String → String → Except String ImageScanFindings)
    (tag : String) (report_limit : Int) (images : List String)
    (circle_branch circle_build_url : Option String) (flag : PyVal)
    (webhook : Option String) (resp : HttpResponse) :
    (∃ st, recursive_check_make_report fetch tag report_limit images
        ⟨"", []⟩ = Except.ok st ∧
      (st.report ≠ "" ↔
        ∃ image ∈ images, ∃ r, fetch image tag = Except.ok r ∧
          r.findings ≠ [])) ∧
    (∀ rep : String,
      (mainFinish rep circle_branch circle_build_url flag webhook resp).posts
          ≠ [] ↔ (pyTruthy flag && webhook.isSome) = true) := by
  constructor
  · obtain ⟨st2, hrun, hiff, _, _⟩ := check_images_spec fetch tag report_limit
      images ⟨"", ["Checking ECR scan results..."]⟩
    refine ⟨st2, hrun, ?_⟩
    rw [hiff]
    simp
  · intro rep
    unfold mainFinish
    cases hcond : (pyTruthy flag && webhook.isSome) with
    | false =>
      simp only [hcond, if_false, Bool.false_eq_true]
      simp
    | true =>
      simp only [hcond, if_true]
      cases post_to_slack (finalise_report rep circle_branch circle_build_url).1
          resp with
      | ok u => simp
      | error e => simp

/-- C3: scan-wait failures and findings-fetch failures are both caught:
each failing repository gets a diagnostic naming the repository and the
tag, every repository is still processed (the diagnostics of all
failing repositories coexist in the output), and both stages return
normally for every behaviour of the external calls. -/
theorem c3_per_repository_isolation
    (waiter : String → String → Except String Unit)
    (fetch : String → String → Except String ImageScanFindings)
    (images : List String) (tag : String) (report_limit : Int)
    (st : ReportState) :
    (∃ outs, recursive_wait waiter tag images = Except.ok outs ∧
      ∀ image ∈ images, (∃ e, waiter image tag = Except.error e) →
        ("No ECR image scan results for image " ++ image ++ ", tag " ++ tag)
          ∈ outs) ∧
    (∃ st2, recursive_check_make_report fetch tag report_limit images st =
        Except.ok st2 ∧
      ∀ image ∈ images, (∃ e, fetch image tag = Except.error e) →
        ("Unable to get ECR image scan results for image " ++ image ++
          ", tag " ++ tag) ∈ st2.output) := by
  constructor
  · obtain ⟨outs, hrun, hdiag⟩ := wait_images_spec waiter tag images
    refine ⟨["Waiting for ECR scans to complete..."] ++ outs ++
      ["ECR image scans complete"], ?_, ?_⟩
    · unfold recursive_wait
      rw [hrun]
    · intro i hi hfail
      exact List.mem_append_left _ (List.mem_append_right _ (hdiag i hi hfail))
  · obtain ⟨st2, hrun, _, hdiag, _⟩ := check_images_spec fetch tag report_limit
      images { st with output := st.output ++ ["Checking ECR scan results..."] }
    exact ⟨st2, hrun, hdiag⟩

/-- C6: when the `post_to_slack` flag is falsy or the webhook is absent,
no POST is attempted, nothing is raised, the skip message is printed,
and the finalized report is printed whenever it is non-empty. -/
theorem c6_skip_post (report : String)
    (circle_branch circle_build_url : Option String) (flag : PyVal)
    (webhook : Option String) (resp : HttpResponse)
    (h : pyTruthy flag = false ∨ webhook = Option.none) :
    (mainFinish report circle_branch circle_build_url flag webhook resp).posts
        = [] ∧
    (mainFinish report circle_branch circle_build_url flag webhook resp).err
        = Option.none ∧
    skip_message ∈
      (mainFinish report circle_branch circle_build_url flag webhook resp).output ∧
    (report ≠ "" →
      (finalise_report report circle_branch circle_build_url).1 ∈
        (mainFinish report circle_branch circle_build_url flag webhook
          resp).output) := by
  have hcond : (pyTruthy flag && webhook.isSome) = false := by
    rcases h with h | h
    · simp [h]
    · subst h
      simp
  unfold mainFinish
  simp only [hcond, if_false, Bool.false_eq_true]
  refine ⟨by simp, by simp, ?_, ?_⟩
  · exact List.mem_append_right _ (by simp)
  · intro hr
    apply List.mem_append_left
    simp [finalise_report, hr]

/-- Witness for C6: falsy flag string with a configured webhook and a
non-empty report. -/
theorem c6_skip_post_witness :
    (mainFinish "r" Option.none Option.none (PyVal.str "")
      (some "https://h.example/x") ⟨200, "ok"⟩).posts = [] ∧
    (mainFinish "r" Option.none Option.none (PyVal.str "")
      (some "https://h.example/x") ⟨200, "ok"⟩).err = Option.none ∧
    skip_message ∈
      (mainFinish "r" Option.none Option.none (PyVal.str "")
        (some "https://h.example/x") ⟨200, "ok"⟩).output ∧
    (finalise_report "r" Option.none Option.none).1 ∈
      (mainFinish "r" Option.none Option.none (PyVal.str "")
        (some "https://h.example/x") ⟨200, "ok"⟩).output := by
  have t := c6_skip_post "r" Option.none Option.none (PyVal.str "")
    (some "https://h.example/x") ⟨200, "ok"⟩ (Or.inl (by decide))
  exact ⟨t.1, t.2.1, t.2.2.1, t.2.2.2 (by decide)⟩

/-- C9 counterexample: the empty string can be supplied on the command
line (`--post_to_slack ""`); it is falsy, so the posting condition is
disabled even though a webhook is configured — "every supplied value
enables posting" and "skipped only when the webhook is None" both
fail. -/
theorem c9_empty_string_flag_counterexample :
    pyTruthy (parsed_post_to_slack (some "")) = false ∧
    (mainFinish "report" Option.none Option.none
      (parsed_post_to_slack (some "")) (some "https://hooks.example/x")
      ⟨200, "ok"⟩).posts = [] := by
  decide

/-- C9 amended: any non-empty value supplied for `--post_to_slack`
(including `"false"` and `"0"`) arrives as a string and is truthy, so
the posting condition is enabled and the POST is skipped exactly when
the resolved webhook is `None`. -/
theorem c9_flag_truthiness_amended (s : String) (h : s ≠ "")
    (rep : String) (circle_branch circle_build_url : Option String)
    (webhook : Option String) (resp : HttpResponse) :
    pyTruthy (parsed_post_to_slack (some s)) = true ∧
    ((mainFinish rep circle_branch circle_build_url
        (parsed_post_to_slack (some s)) webhook resp).posts = [] ↔
      webhook = Option.none) := by
  have ht : pyTruthy (parsed_post_to_slack (some s)) = true := by
    simp [pyTruthy, parsed_post_to_slack]
    exact h
  refine ⟨ht, ?_⟩
  unfold mainFinish
  cases webhook with
  | none =>
    simp [ht]
  | some url =>
    simp only [ht, Option.isSome_some, Bool.and_self, if_true]
    cases post_to_slack (finalise_report rep circle_branch circle_build_url).1
        resp with
    | ok u => simp
    | error e => simp

/-- Witness for C9 amended at the supplied value `"false"` with a
configured webhook. -/
theorem c9_flag_truthiness_amended_witness :
    pyTruthy (parsed_post_to_slack (some "false")) = true ∧
    ((mainFinish "r" Option.none Option.none
        (parsed_post_to_slack (some "false")) (some "https://h.example/x")
        ⟨200, "ok"⟩).posts = [] ↔
      (some "https://h.example/x" : Option String) = Option.none) :=
  c9_flag_truthiness_amended "false" (by decide) "r" Option.none Option.none
    (some "https://h.example/x") ⟨200, "ok"⟩
